import Mathlib

/-!
Shallow embedding of the gh_search repository
(`github_repo_search.py` and `example_usage.py`).

The remote code-search API is modelled as a fixed function from query
strings to outcomes (`Remote`); pacing and cooldown sleeps are recorded
as events rather than performed.
-/

set_option autoImplicit false

namespace GhSearch

/-- Python `str.isspace` characters relevant here, modelling the
default `str.strip()` character class. -/
def isWs (c : Char) : Bool := c.isWhitespace

/-- Strip characters satisfying `isWs` from both ends of a character list,
modelling Python `str.strip()`. -/
def stripChars (l : List Char) : List Char :=
  ((l.dropWhile isWs).reverse.dropWhile isWs).reverse

/-- Python `pattern.strip()`. -/
def pyStrip (s : String) : String := ⟨stripChars s.data⟩

/-- Python `s.startswith(pre)`. -/
def strStartsWith (s pre : String) : Bool := pre.data.isPrefixOf s.data

/-- Python `pattern.lstrip('*.')`: drop every leading `'*'` or `'.'`. -/
def lstripStarDot (s : String) : String :=
  ⟨s.data.dropWhile (fun c => c == '*' || c == '.')⟩

/-- `GitHubRepoSearcher._build_ignore_query`: fold over the ignore patterns,
appending one exclusion clause per non-skipped pattern. -/
def build_ignore_query (ignore_patterns : List String) : String :=
  ignore_patterns.foldl (fun ignore_query pat =>
    let pattern := pyStrip pat
    if pattern = "" then ignore_query
    else if strStartsWith pattern "*." || strStartsWith pattern "." then
      ignore_query ++ (" -extension:" ++ lstripStarDot pattern)
    else if !(pattern.data.contains '.') && !(strStartsWith pattern "/") then
      ignore_query ++ (" -extension:" ++ pattern)
    else
      ignore_query ++ (" -path:" ++ pattern)) ""

/-- The clause a single ignore pattern contributes to the query
(`none` when the pattern is skipped); one iteration of the
`_build_ignore_query` loop, factored out per pattern. -/
def clauseFor (pat : String) : Option String :=
  let pattern := pyStrip pat
  if pattern = "" then none
  else if strStartsWith pattern "*." || strStartsWith pattern "." then
    some (" -extension:" ++ lstripStarDot pattern)
  else if !(pattern.data.contains '.') && !(strStartsWith pattern "/") then
    some (" -extension:" ++ pattern)
  else
    some (" -path:" ++ pattern)

/-- Concatenation of a list of clause strings, in order. -/
def concatClauses : List String → String
  | [] => ""
  | c :: cs => c ++ concatClauses cs

/-- A repository as used by the script: `repo.full_name` and `repo.html_url`. -/
structure Repo where
  full_name : String
  html_url : String
deriving DecidableEq

/-- Outcome of one call to the remote search endpoint:
a result count, a `GithubException` with a status, or any other exception. -/
inductive SearchOutcome where
  | ok (totalCount : Nat)
  | githubException (status : Nat)
  | otherException
deriving DecidableEq

/-- The remote search API, a fixed function from query string to outcome. -/
abbrev Remote := String → SearchOutcome

/-- Observable side effects of the search loop: issuing a query to the
remote, and sleeping for a number of seconds. -/
inductive Event where
  | query (q : String)
  | sleep (seconds : Nat)
deriving DecidableEq

/-- Result of `search_string_in_repo`: the returned boolean and the
events (queries issued, sleeps) in order. -/
structure SearchCall where
  found : Bool
  events : List Event
deriving DecidableEq

/-- The query string built by `search_string_in_repo`:
`f'"{search_string}" repo:{repo.full_name}{ignore_query}'`. -/
def queryFor (ignore_patterns : List String) (repo : Repo) (search_string : String) : String :=
  "\"" ++ search_string ++ "\" repo:" ++ repo.full_name ++ build_ignore_query ignore_patterns

/-- `GitHubRepoSearcher.search_string_in_repo`: build the query, call the
remote, return whether `totalCount > 0`; on a `GithubException` with
status 403 sleep 60 seconds and return `false`, on status 422 return
`false`, on any other status or any other exception return `false`. -/
def search_string_in_repo (remote : Remote) (ignore_patterns : List String)
    (repo : Repo) (search_string : String) : SearchCall :=
  let query := queryFor ignore_patterns repo search_string
  match remote query with
  | .ok totalCount => { found := decide (totalCount > 0), events := [.query query] }
  | .githubException status =>
      if status = 403 then { found := false, events := [.query query, .sleep 60] }
      else if status = 422 then { found := false, events := [.query query] }
      else { found := false, events := [.query query] }
  | .otherException => { found := false, events := [.query query] }

/-- Python `set.add`: insert a string into a duplicate-free list if absent. -/
def setAdd (s : List String) (x : String) : List String :=
  if x ∈ s then s else s ++ [x]

/-- One iteration of the inner loop of `search_strings_in_repos`: issue the
search call for one string, add the string to the found set when it matched,
then sleep 1 second (`time.sleep(1)` after every search call). -/
def stringStep (remote : Remote) (ignore_patterns : List String) (repo : Repo)
    (acc : List String × List Event) (search_string : String) : List String × List Event :=
  let r := search_string_in_repo remote ignore_patterns repo search_string
  let found_strings := if r.found then setAdd acc.1 search_string else acc.1
  (found_strings, acc.2 ++ r.events ++ [Event.sleep 1])

/-- The inner loop of `search_strings_in_repos` for one repository:
fold over the search strings, collecting the found strings and the event
trace, starting from `found_strings = set()`. -/
def searchRepoLoop (remote : Remote) (ignore_patterns : List String)
    (repo : Repo) (search_strings : List String) : List String × List Event :=
  search_strings.foldl (stringStep remote ignore_patterns repo) ([], [])

/-- Python dict assignment `d[k] = v`: replace in place if the key exists,
otherwise append. -/
def dictSet (d : List (String × List String)) (k : String) (v : List String) :
    List (String × List String) :=
  match d with
  | [] => [(k, v)]
  | (k₁, v₁) :: rest => if k₁ = k then (k, v) :: rest else (k₁, v₁) :: dictSet rest k v

/-- One iteration of the outer loop of `search_strings_in_repos`: run the
inner loop for one repository and record
`results[repo.html_url] = found_strings` only when `found_strings` is
non-empty (`if found_strings:`). -/
def aggStep (remote : Remote) (ignore_patterns : List String) (search_strings : List String)
    (results : List (String × List String)) (repo : Repo) : List (String × List String) :=
  let found_strings := (searchRepoLoop remote ignore_patterns repo search_strings).1
  if found_strings = [] then results
  else dictSet results repo.html_url found_strings

/-- `GitHubRepoSearcher.search_strings_in_repos`: `if not repos: return {}`,
otherwise the outer loop over the repositories, starting from `results = {}`. -/
def search_strings_in_repos (remote : Remote) (ignore_patterns : List String)
    (repos : List Repo) (search_strings : List String) : List (String × List String) :=
  if repos = [] then []
  else repos.foldl (aggStep remote ignore_patterns search_strings) []

/-- Python `string_counts[string] = string_counts.get(string, 0) + 1`. -/
def dictIncr (d : List (String × Nat)) (k : String) : List (String × Nat) :=
  match d with
  | [] => [(k, 1)]
  | (k₁, n) :: rest => if k₁ = k then (k₁, n + 1) :: rest else (k₁, n) :: dictIncr rest k

/-- The per-string tally loop of `example_usage.main`: for every entry of the
result mapping and every string in its value set, increment that string's count. -/
def string_counts (results : List (String × List String)) : List (String × Nat) :=
  results.foldl (fun counts kv => kv.2.foldl dictIncr counts) []

/-- Lookup in the tally dictionary, defaulting to 0 for absent keys. -/
def lookupCount (d : List (String × Nat)) (k : String) : Nat :=
  match d with
  | [] => 0
  | (k₁, n) :: rest => if k₁ = k then n else lookupCount rest k

/-- The queries among a list of events, in order. -/
def queriesIn (evs : List Event) : List String :=
  evs.filterMap (fun e => match e with | .query q => some q | .sleep _ => none)

/-- A fixed repository used to instantiate universally quantified results. -/
def repoW : Repo := ⟨"my-org/alpha", "https://example.com/alpha"⟩

/-- A remote that always reports rate-limiting (status 403). -/
def remoteRateLimited : Remote := fun _ => .githubException 403

/-- A remote that always reports an unprocessable entity (status 422). -/
def remoteUnprocessable : Remote := fun _ => .githubException 422

/-- A remote that always reports a server error (status 500). -/
def remoteServerError : Remote := fun _ => .githubException 500

/-- A remote on which every call raises a non-GitHub exception. -/
def remoteCrash : Remote := fun _ => .otherException

/-- A remote on which every query has exactly one match. -/
def remoteHit : Remote := fun _ => .ok 1

example : build_ignore_query ["md"] = " -extension:md" := by decide
example : build_ignore_query [".circleci"] = " -extension:circleci" := by decide
example : build_ignore_query ["src/generated"] = " -extension:src/generated" := by decide
example : build_ignore_query ["*.json"] = " -extension:json" := by decide
example : build_ignore_query ["*"] = " -extension:*" := by decide
example : build_ignore_query ["**."] = " -path:**." := by decide
example : build_ignore_query ["md", "  ", "*.json"] = " -extension:md -extension:json" := by decide

/-! ### Helper lemmas about one search call -/

theorem call_ok {remote : Remote} {ps : List String} {repo : Repo} {s : String} {n : Nat}
    (h : remote (queryFor ps repo s) = .ok n) :
    search_string_in_repo remote ps repo s =
      { found := decide (n > 0), events := [.query (queryFor ps repo s)] } := by
  simp only [search_string_in_repo, h]

theorem call_rate_limited {remote : Remote} {ps : List String} {repo : Repo} {s : String}
    (h : remote (queryFor ps repo s) = .githubException 403) :
    search_string_in_repo remote ps repo s =
      { found := false, events := [.query (queryFor ps repo s), .sleep 60] } := by
  simp [search_string_in_repo, h]

theorem call_github_not_403 {remote : Remote} {ps : List String} {repo : Repo} {s : String}
    {st : Nat} (hst : st ≠ 403) (h : remote (queryFor ps repo s) = .githubException st) :
    search_string_in_repo remote ps repo s =
      { found := false, events := [.query (queryFor ps repo s)] } := by
  simp only [search_string_in_repo, h, if_neg hst]
  split <;> rfl

theorem call_crash {remote : Remote} {ps : List String} {repo : Repo} {s : String}
    (h : remote (queryFor ps repo s) = .otherException) :
    search_string_in_repo remote ps repo s =
      { found := false, events := [.query (queryFor ps repo s)] } := by
  simp only [search_string_in_repo, h]

theorem call_found_false {remote : Remote} {ps : List String} {repo : Repo} {s : String}
    (h : ∀ n, remote (queryFor ps repo s) ≠ .ok n) :
    (search_string_in_repo remote ps repo s).found = false := by
  cases hr : remote (queryFor ps repo s) with
  | ok n => exact absurd hr (h n)
  | githubException st =>
    by_cases h403 : st = 403
    · subst h403; rw [call_rate_limited hr]
    · rw [call_github_not_403 h403 hr]
  | otherException => rw [call_crash hr]

theorem queriesIn_call (remote : Remote) (ps : List String) (repo : Repo) (s : String) :
    queriesIn (search_string_in_repo remote ps repo s).events = [queryFor ps repo s] := by
  cases hr : remote (queryFor ps repo s) with
  | ok n => rw [call_ok hr]; rfl
  | githubException st =>
    by_cases h403 : st = 403
    · subst h403; rw [call_rate_limited hr]; rfl
    · rw [call_github_not_403 h403 hr]; rfl
  | otherException => rw [call_crash hr]; rfl

/-! ### Claims -/

/-- C1 counterexample: applied to the documented example pattern
`"src/generated"` the Query Builder does not return ` -path:src/generated`
(it returns ` -extension:src/generated`, since the pattern contains no `.`
and does not start with `/`). -/
theorem ignore_example_counterexample :
    build_ignore_query ["src/generated"] ≠ " -path:src/generated" ∧
    build_ignore_query ["src/generated"] = " -extension:src/generated" := by
  refine ⟨?_, by decide⟩
  decide

/-- C1 (amended): the Query Builder maps the documented example patterns to:
`"md"` ↦ ` -extension:md`, `".circleci"` ↦ ` -extension:circleci`,
`"src/generated"` ↦ ` -extension:src/generated` (not ` -path:…`, because the
pattern contains no `.` and does not start with `/`), and
`"*.json"` ↦ ` -extension:json`. -/
theorem ignore_example_clauses :
    build_ignore_query ["md"] = " -extension:md" ∧
    build_ignore_query [".circleci"] = " -extension:circleci" ∧
    build_ignore_query ["src/generated"] = " -extension:src/generated" ∧
    build_ignore_query ["*.json"] = " -extension:json" := by
  decide

/-- C2: when the remote raises a platform error, the per-repository search
returns `false` rather than propagating: on status 403 it sleeps 60 seconds
and returns `false` after issuing the query exactly once (no retry); on
status 422 it returns `false` with no sleep; on any other remote status or
on a local exception it returns `false` with no sleep (logging is not
modelled). -/
theorem search_error_policy (remote : Remote) (ps : List String) (repo : Repo) (s : String) :
    (remote (queryFor ps repo s) = .githubException 403 →
      search_string_in_repo remote ps repo s =
        { found := false, events := [.query (queryFor ps repo s), .sleep 60] }) ∧
    (remote (queryFor ps repo s) = .githubException 422 →
      search_string_in_repo remote ps repo s =
        { found := false, events := [.query (queryFor ps repo s)] }) ∧
    (∀ st, st ≠ 403 → remote (queryFor ps repo s) = .githubException st →
      search_string_in_repo remote ps repo s =
        { found := false, events := [.query (queryFor ps repo s)] }) ∧
    (remote (queryFor ps repo s) = .otherException →
      search_string_in_repo remote ps repo s =
        { found := false, events := [.query (queryFor ps repo s)] }) :=
  ⟨fun h => call_rate_limited h,
   fun h => call_github_not_403 (by decide) h,
   fun _ hst h => call_github_not_403 hst h,
   fun h => call_crash h⟩

/-- Witness for C2, at each kind of failing remote. -/
theorem search_error_policy_witness :
    (search_string_in_repo remoteRateLimited [] repoW "x" =
      { found := false, events := [.query (queryFor [] repoW "x"), .sleep 60] }) ∧
    (search_string_in_repo remoteUnprocessable [] repoW "x" =
      { found := false, events := [.query (queryFor [] repoW "x")] }) ∧
    (search_string_in_repo remoteServerError [] repoW "x" =
      { found := false, events := [.query (queryFor [] repoW "x")] }) ∧
    (search_string_in_repo remoteCrash [] repoW "x" =
      { found := false, events := [.query (queryFor [] repoW "x")] }) :=
  ⟨(search_error_policy remoteRateLimited [] repoW "x").1 rfl,
   (search_error_policy remoteUnprocessable [] repoW "x").2.1 rfl,
   (search_error_policy remoteServerError [] repoW "x").2.2.1 500 (by decide) rfl,
   (search_error_policy remoteCrash [] repoW "x").2.2.2 rfl⟩

/-! ### Query Builder structure -/

theorem build_step_eq (acc : String) (pat : String) :
    (let pattern := pyStrip pat
     if pattern = "" then acc
     else if strStartsWith pattern "*." || strStartsWith pattern "." then
       acc ++ (" -extension:" ++ lstripStarDot pattern)
     else if !(pattern.data.contains '.') && !(strStartsWith pattern "/") then
       acc ++ (" -extension:" ++ pattern)
     else acc ++ (" -path:" ++ pattern))
    = match clauseFor pat with
      | none => acc
      | some c => acc ++ c := by
  simp only [clauseFor]
  split_ifs <;> rfl

theorem build_ignore_query_eq_concat (ps : List String) :
    build_ignore_query ps = concatClauses (ps.filterMap clauseFor) := by
  suffices h : ∀ (l : List String) (acc : String),
      l.foldl (fun ignore_query pat =>
        let pattern := pyStrip pat
        if pattern = "" then ignore_query
        else if strStartsWith pattern "*." || strStartsWith pattern "." then
          ignore_query ++ (" -extension:" ++ lstripStarDot pattern)
        else if !(pattern.data.contains '.') && !(strStartsWith pattern "/") then
          ignore_query ++ (" -extension:" ++ pattern)
        else ignore_query ++ (" -path:" ++ pattern)) acc
      = acc ++ concatClauses (l.filterMap clauseFor) by
    exact (h ps "").trans (String.empty_append _)
  intro l
  induction l with
  | nil => intro acc; simp [concatClauses]
  | cons p t ih =>
    intro acc
    rw [List.foldl_cons, build_step_eq]
    cases hc : clauseFor p with
    | none => rw [List.filterMap_cons_none hc]; exact ih acc
    | some c =>
      rw [List.filterMap_cons_some hc]
      show t.foldl _ (acc ++ c) = acc ++ (c ++ concatClauses (t.filterMap clauseFor))
      rw [ih (acc ++ c), String.append_assoc]

theorem dropWhile_all_iff (l : List Char) :
    (∀ x ∈ l.dropWhile isWs, isWs x) ↔ (∀ x ∈ l, isWs x) := by
  induction l with
  | nil => simp
  | cons a t ih =>
    by_cases ha : isWs a
    · simp [List.dropWhile_cons, ha, ih]
    · simp [List.dropWhile_cons, ha]

theorem stripChars_eq_nil_iff (l : List Char) :
    stripChars l = [] ↔ ∀ c ∈ l, isWs c := by
  unfold stripChars
  rw [List.reverse_eq_nil_iff, List.dropWhile_eq_nil_iff]
  constructor
  · intro h
    exact (dropWhile_all_iff l).mp (fun x hx => h x (List.mem_reverse.mpr hx))
  · intro h x hx
    exact (dropWhile_all_iff l).mpr h x (List.mem_reverse.mp hx)

theorem pyStrip_eq_empty_iff (s : String) :
    pyStrip s = "" ↔ ∀ c ∈ s.data, isWs c := by
  rw [String.ext_iff]
  exact stripChars_eq_nil_iff s.data

theorem clauseFor_eq_none_iff (p : String) :
    clauseFor p = none ↔ ∀ c ∈ p.data, isWs c := by
  rw [← pyStrip_eq_empty_iff]
  simp only [clauseFor]
  split_ifs with h <;> simp [h]

theorem clauseFor_shape (p : String) (c : String) (h : clauseFor p = some c) :
    (∃ t, c = " -extension:" ++ t) ∨ (∃ t, c = " -path:" ++ t) := by
  simp only [clauseFor] at h
  split_ifs at h with h1 h2 h3
  · exact Or.inl ⟨_, (Option.some.inj h).symm⟩
  · exact Or.inl ⟨_, (Option.some.inj h).symm⟩
  · exact Or.inr ⟨_, (Option.some.inj h).symm⟩

/-- C4: the Query Builder output is the concatenation, in input order with no
deduplication, of one clause per non-skipped pattern; a pattern is skipped
exactly when it is empty or whitespace-only after trimming; and every
emitted clause is a single leading space followed by `-extension:` or
`-path:` and the clause body. -/
theorem build_clause_structure (ps : List String) :
    build_ignore_query ps = concatClauses (ps.filterMap clauseFor) ∧
    (∀ p, clauseFor p = none ↔ ∀ c ∈ p.data, isWs c) ∧
    (∀ p c, clauseFor p = some c →
      (∃ t, c = " -extension:" ++ t) ∨ (∃ t, c = " -path:" ++ t)) :=
  ⟨build_ignore_query_eq_concat ps, clauseFor_eq_none_iff, clauseFor_shape⟩

/-- Witness for C4 on a concrete pattern list. -/
theorem build_clause_structure_witness :
    build_ignore_query ["md", " ", "src/a.c"]
      = concatClauses (["md", " ", "src/a.c"].filterMap clauseFor) ∧
    clauseFor " " = none ∧
    ((∃ t, " -extension:md" = " -extension:" ++ t) ∨
      (∃ t, " -extension:md" = " -path:" ++ t)) :=
  ⟨(build_clause_structure ["md", " ", "src/a.c"]).1,
   ((build_clause_structure []).2.1 " ").mpr (by decide),
   (build_clause_structure []).2.2 "md" " -extension:md" (by decide)⟩

/-- C9 counterexample: the pattern `"*"` consists only of `'*'` and `'.'`
characters, yet the Query Builder emits ` -extension:*`, not the empty
extension clause ` -extension:` claimed for every such pattern ( `"*"` does
not start with `'.'` or `"*."`, so no leading characters are stripped). -/
theorem star_pattern_counterexample :
    build_ignore_query ["*"] ≠ " -extension:" ∧
    build_ignore_query ["*"] = " -extension:*" := by
  refine ⟨?_, by decide⟩
  decide

theorem dropWhile_eq_self_of_all_neg (l : List Char) (h : ∀ c ∈ l, isWs c = false) :
    l.dropWhile isWs = l := by
  cases l with
  | nil => rfl
  | cons a t =>
    rw [List.dropWhile_cons_of_neg]
    simp [h a (List.mem_cons_self a t)]

theorem pyStrip_eq_self_of_star_dot (p : String)
    (hchars : ∀ c ∈ p.data, c = '*' ∨ c = '.') : pyStrip p = p := by
  have hnw : ∀ c ∈ p.data, isWs c = false := by
    intro c hc
    rcases hchars c hc with h | h <;> subst h <;> decide
  apply String.ext
  show stripChars p.data = p.data
  unfold stripChars
  rw [dropWhile_eq_self_of_all_neg p.data hnw,
    dropWhile_eq_self_of_all_neg p.data.reverse
      (fun c hc => hnw c (List.mem_reverse.mp hc)),
    List.reverse_reverse]

/-- C9 (amended): every ignore pattern that consists only of `'*'` and `'.'`
characters and starts with `'.'` or with `"*."` (such as `"."`, `"*."`, or
`".."`) is not skipped: the Query Builder emits the clause ` -extension:`
with an empty extension name, because stripping the leading `'*'` and `'.'`
characters leaves the empty string and only whitespace-only patterns are
skipped. -/
theorem star_dot_pattern_clause (p : String)
    (hchars : ∀ c ∈ p.data, c = '*' ∨ c = '.')
    (hstart : strStartsWith p "." = true ∨ strStartsWith p "*." = true) :
    build_ignore_query [p] = " -extension:" := by
  have hstrip : pyStrip p = p := pyStrip_eq_self_of_star_dot p hchars
  have hne : p ≠ "" := by
    intro he
    subst he
    rcases hstart with h | h <;> exact absurd h (by decide)
  have hcond : (strStartsWith p "*." || strStartsWith p ".") = true := by
    rcases hstart with h | h <;> simp [h]
  have hl : lstripStarDot p = "" := by
    apply String.ext
    show p.data.dropWhile (fun c => c == '*' || c == '.') = []
    rw [List.dropWhile_eq_nil_iff]
    intro c hc
    rcases hchars c hc with h | h <;> subst h <;> decide
  simp only [build_ignore_query, List.foldl_cons, List.foldl_nil, hstrip]
  rw [if_neg hne, if_pos hcond, hl]
  simp

/-- Witness for C9 (amended) at the pattern `"."`. -/
theorem star_dot_pattern_clause_witness :
    build_ignore_query ["."] = " -extension:" :=
  star_dot_pattern_clause "." (by decide) (Or.inl (by decide))

/-- C5: the query issued to the remote by `search_string_in_repo` is exactly
the search string wrapped in double quotes, a space, `repo:` and the
repository full name, followed by the Query Builder clause; this holds for
every search string, including strings containing `"` (no escaping). -/
theorem query_construction (remote : Remote) (ps : List String) (repo : Repo) (s : String) :
    queriesIn (search_string_in_repo remote ps repo s).events =
      ["\"" ++ s ++ "\" repo:" ++ repo.full_name ++ build_ignore_query ps] := by
  rw [queriesIn_call]
  rfl

/-! ### Inner search loop: traces -/

theorem queriesIn_append (a b : List Event) :
    queriesIn (a ++ b) = queriesIn a ++ queriesIn b :=
  List.filterMap_append a b _

theorem loop_trace_queries (remote : Remote) (ps : List String) (repo : Repo) :
    ∀ (strs : List String) (acc : List String × List Event),
      queriesIn ((strs.foldl (stringStep remote ps repo) acc).2)
        = queriesIn acc.2 ++ strs.map (queryFor ps repo) := by
  intro strs
  induction strs with
  | nil => intro acc; simp
  | cons s t ih =>
    intro acc
    rw [List.foldl_cons, ih]
    show queriesIn (acc.2 ++ (search_string_in_repo remote ps repo s).events
        ++ [Event.sleep 1]) ++ _ = _
    rw [queriesIn_append, queriesIn_append, queriesIn_call]
    simp [queriesIn]

theorem loop_trace_mem (remote : Remote) (ps : List String) (repo : Repo) :
    ∀ (strs : List String) (acc : List String × List Event) (e : Event),
      e ∈ acc.2 → e ∈ (strs.foldl (stringStep remote ps repo) acc).2 := by
  intro strs
  induction strs with
  | nil => intro acc e he; exact he
  | cons s t ih =>
    intro acc e he
    rw [List.foldl_cons]
    apply ih
    show e ∈ acc.2 ++ (search_string_in_repo remote ps repo s).events ++ [Event.sleep 1]
    exact List.mem_append_left _ (List.mem_append_left _ he)

theorem loop_403_sleeps (remote : Remote) (ps : List String) (repo : Repo) :
    ∀ (strs : List String) (acc : List String × List Event) (s : String), s ∈ strs →
      remote (queryFor ps repo s) = .githubException 403 →
      Event.sleep 60 ∈ (strs.foldl (stringStep remote ps repo) acc).2 := by
  intro strs
  induction strs with
  | nil => intro acc s h; cases h
  | cons a t ih =>
    intro acc s hs h403
    rw [List.foldl_cons]
    rcases List.mem_cons.mp hs with rfl | hmem
    · apply loop_trace_mem
      show Event.sleep 60 ∈ acc.2 ++ (search_string_in_repo remote ps repo s).events
          ++ [Event.sleep 1]
      rw [call_rate_limited h403]
      exact List.mem_append_left _ (List.mem_append_right _ (by simp))
    · exact ih _ s hmem h403

/-- C6: a failing search for one string never prevents the searches for the
remaining strings of a repository: the queries issued by the inner loop are
exactly one per search string, in order, whatever the remote outcomes are;
and when some string hits a rate limit (403) it is recorded as not found and
the 60-second cooldown sleep appears in the loop's trace. -/
theorem per_repo_isolation (remote : Remote) (ps : List String) (repo : Repo)
    (strs : List String) :
    queriesIn (searchRepoLoop remote ps repo strs).2 = strs.map (queryFor ps repo) ∧
    (∀ s ∈ strs, remote (queryFor ps repo s) = .githubException 403 →
      (search_string_in_repo remote ps repo s).found = false ∧
      Event.sleep 60 ∈ (searchRepoLoop remote ps repo strs).2) := by
  constructor
  · rw [searchRepoLoop, loop_trace_queries]
    rfl
  · intro s hs h403
    refine ⟨?_, loop_403_sleeps remote ps repo strs ([], []) s hs h403⟩
    rw [call_rate_limited h403]

/-- Witness for C6: with a rate-limiting remote, the string is not found and
the cooldown sleep is in the trace. -/
theorem per_repo_isolation_witness :
    (search_string_in_repo remoteRateLimited [] repoW "a").found = false ∧
    Event.sleep 60 ∈ (searchRepoLoop remoteRateLimited [] repoW ["a"]).2 :=
  (per_repo_isolation remoteRateLimited [] repoW ["a"]).2 "a" (by decide) rfl

/-! ### Aggregator: sparse mapping invariants -/

theorem dictSet_key_mem (d : List (String × List String)) (k k' : String) (v' : List String) :
    (∃ v, (k, v) ∈ dictSet d k' v') ↔ k = k' ∨ ∃ v, (k, v) ∈ d := by
  induction d with
  | nil => simp [dictSet]
  | cons hd tl ih =>
    obtain ⟨k₁, v₁⟩ := hd
    by_cases hk : k₁ = k'
    · subst hk
      simp only [dictSet, if_pos rfl, List.mem_cons, Prod.mk.injEq]
      aesop
    · simp only [dictSet, if_neg hk, List.mem_cons, Prod.mk.injEq]
      constructor
      · rintro ⟨v, hv⟩
        rcases hv with ⟨h1, _⟩ | hv
        · exact Or.inr ⟨v₁, Or.inl ⟨h1, rfl⟩⟩
        · rcases ih.mp ⟨v, hv⟩ with h | ⟨v₂, hv₂⟩
          · exact Or.inl h
          · exact Or.inr ⟨v₂, Or.inr hv₂⟩
      · intro h
        have h' : k = k' ∨ (k = k₁ ∨ ∃ v, (k, v) ∈ tl) := by aesop
        rcases h' with h' | h'
        · obtain ⟨v, hv⟩ := ih.mpr (Or.inl h')
          exact ⟨v, Or.inr hv⟩
        · rcases h' with h' | ⟨v, hv⟩
          · exact ⟨v₁, Or.inl ⟨h', rfl⟩⟩
          · obtain ⟨v₂, hv₂⟩ := ih.mpr (Or.inr ⟨v, hv⟩)
            exact ⟨v₂, Or.inr hv₂⟩

theorem dictSet_mem (d : List (String × List String)) (k' : String) (v' : List String) :
    ∀ kv ∈ dictSet d k' v', kv ∈ d ∨ kv = (k', v') := by
  induction d with
  | nil => intro kv hkv; simp [dictSet] at hkv; exact Or.inr hkv
  | cons hd tl ih =>
    obtain ⟨k₁, v₁⟩ := hd
    intro kv hkv
    by_cases hk : k₁ = k'
    · rw [dictSet, if_pos hk] at hkv
      rcases List.mem_cons.mp hkv with rfl | h
      · exact Or.inr rfl
      · exact Or.inl (List.mem_cons_of_mem _ h)
    · rw [dictSet, if_neg hk] at hkv
      rcases List.mem_cons.mp hkv with rfl | h
      · exact Or.inl (List.mem_cons_self _ _)
      · rcases ih kv h with h' | h'
        · exact Or.inl (List.mem_cons_of_mem _ h')
        · exact Or.inr h'

theorem agg_keys_aux (remote : Remote) (ps : List String) (strs : List String) :
    ∀ (repos : List Repo) (acc : List (String × List String)) (k : String),
      (∃ v, (k, v) ∈ repos.foldl (aggStep remote ps strs) acc) ↔
        ((∃ v, (k, v) ∈ acc) ∨
          ∃ r ∈ repos, r.html_url = k ∧ (searchRepoLoop remote ps r strs).1 ≠ []) := by
  intro repos
  induction repos with
  | nil => intro acc k; simp
  | cons r t ih =>
    intro acc k
    rw [List.foldl_cons, ih, List.exists_mem_cons_iff]
    by_cases hf : (searchRepoLoop remote ps r strs).1 = []
    · have hstep : aggStep remote ps strs acc r = acc := by
        simp [aggStep, hf]
      rw [hstep]
      simp only [hf, ne_eq, not_true_eq_false, and_false, false_or]
    · have hstep : aggStep remote ps strs acc r
          = dictSet acc r.html_url (searchRepoLoop remote ps r strs).1 := by
        simp [aggStep, hf]
      rw [hstep, dictSet_key_mem]
      have hhead : (r.html_url = k ∧ (searchRepoLoop remote ps r strs).1 ≠ []) ↔
          k = r.html_url := by
        simp [hf, eq_comm]
      rw [hhead]
      tauto

theorem agg_values_aux (remote : Remote) (ps : List String) (strs : List String) :
    ∀ (repos : List Repo) (acc : List (String × List String)),
      (∀ kv ∈ acc, kv.2 ≠ []) →
      ∀ kv ∈ repos.foldl (aggStep remote ps strs) acc, kv.2 ≠ [] := by
  intro repos
  induction repos with
  | nil => intro acc h; exact h
  | cons r t ih =>
    intro acc h
    rw [List.foldl_cons]
    apply ih
    intro kv hkv
    by_cases hf : (searchRepoLoop remote ps r strs).1 = []
    · rw [aggStep, if_pos hf] at hkv
      exact h kv hkv
    · rw [aggStep, if_neg hf] at hkv
      rcases dictSet_mem acc r.html_url _ kv hkv with h' | h'
      · exact h kv h'
      · rw [h']
        exact hf

/-- C3: a repository URL appears as a key of the result mapping if and only
if some repository in the run with that URL has a non-empty matched-string
set, and no key of the mapping is ever bound to an empty set. -/
theorem aggregator_sparse (remote : Remote) (ps : List String)
    (repos : List Repo) (strs : List String) :
    (∀ k, (∃ v, (k, v) ∈ search_strings_in_repos remote ps repos strs) ↔
      ∃ r ∈ repos, r.html_url = k ∧ (searchRepoLoop remote ps r strs).1 ≠ []) ∧
    (∀ kv ∈ search_strings_in_repos remote ps repos strs, kv.2 ≠ []) := by
  constructor
  · intro k
    by_cases hr : repos = []
    · subst hr; simp [search_strings_in_repos]
    · rw [search_strings_in_repos, if_neg hr, agg_keys_aux]
      simp
  · intro kv hkv
    by_cases hr : repos = []
    · subst hr; simp [search_strings_in_repos] at hkv
    · rw [search_strings_in_repos, if_neg hr] at hkv
      exact agg_values_aux remote ps strs repos [] (by simp) kv hkv

/-- Witness for C3: on a remote where every query matches, the single
repository's URL is a key and its value set is non-empty. -/
theorem aggregator_sparse_witness :
    ("https://example.com/alpha", ["x"]) ∈ search_strings_in_repos remoteHit [] [repoW] ["x"] ∧
    (["x"] : List String) ≠ [] :=
  ⟨by decide,
   (aggregator_sparse remoteHit [] [repoW] ["x"]).2
     ("https://example.com/alpha", ["x"]) (by decide)⟩

theorem setAdd_mem (l : List String) (x : String) :
    ∀ y ∈ setAdd l x, y ∈ l ∨ y = x := by
  intro y hy
  by_cases hx : x ∈ l
  · rw [setAdd, if_pos hx] at hy
    exact Or.inl hy
  · rw [setAdd, if_neg hx] at hy
    rcases List.mem_append.mp hy with h | h
    · exact Or.inl h
    · exact Or.inr (List.mem_singleton.mp h)

theorem loop_found_subset (remote : Remote) (ps : List String) (repo : Repo) :
    ∀ (todo : List String) (acc : List String × List Event) (x : String),
      x ∈ (todo.foldl (stringStep remote ps repo) acc).1 → x ∈ acc.1 ∨ x ∈ todo := by
  intro todo
  induction todo with
  | nil => intro acc x hx; exact Or.inl hx
  | cons s t ih =>
    intro acc x hx
    rw [List.foldl_cons] at hx
    rcases ih _ x hx with h | h
    · by_cases hf : (search_string_in_repo remote ps repo s).found
      · have : (stringStep remote ps repo acc s).1 = setAdd acc.1 s := by
          simp [stringStep, hf]
        rw [this] at h
        rcases setAdd_mem acc.1 s x h with h' | h'
        · exact Or.inl h'
        · exact Or.inr (h' ▸ List.mem_cons_self s t)
      · have : (stringStep remote ps repo acc s).1 = acc.1 := by
          simp [stringStep, hf]
        rw [this] at h
        exact Or.inl h
    · exact Or.inr (List.mem_cons_of_mem s h)

theorem agg_subset_aux (remote : Remote) (ps : List String) (strs : List String) :
    ∀ (repos : List Repo) (acc : List (String × List String)),
      (∀ kv ∈ acc, ∀ x ∈ kv.2, x ∈ strs) →
      ∀ kv ∈ repos.foldl (aggStep remote ps strs) acc, ∀ x ∈ kv.2, x ∈ strs := by
  intro repos
  induction repos with
  | nil => intro acc h; exact h
  | cons r t ih =>
    intro acc h
    rw [List.foldl_cons]
    apply ih
    intro kv hkv x hx
    by_cases hf : (searchRepoLoop remote ps r strs).1 = []
    · have hstep : aggStep remote ps strs acc r = acc := by simp [aggStep, hf]
      rw [hstep] at hkv
      exact h kv hkv x hx
    · have hstep : aggStep remote ps strs acc r
          = dictSet acc r.html_url (searchRepoLoop remote ps r strs).1 := by
        simp [aggStep, hf]
      rw [hstep] at hkv
      rcases dictSet_mem acc r.html_url _ kv hkv with h' | h'
      · exact h kv h' x hx
      · rw [h'] at hx
        rcases loop_found_subset remote ps r strs ([], []) x hx with h'' | h''
        · cases h''
        · exact h''

/-- C10: every value set of the result mapping is a subset of the
caller-supplied search-string list: the mapping never contains a string
that was not searched for. -/
theorem aggregator_values_subset (remote : Remote) (ps : List String)
    (repos : List Repo) (strs : List String) :
    ∀ kv ∈ search_strings_in_repos remote ps repos strs, ∀ x ∈ kv.2, x ∈ strs := by
  intro kv hkv x hx
  by_cases hr : repos = []
  · subst hr; simp [search_strings_in_repos] at hkv
  · rw [search_strings_in_repos, if_neg hr] at hkv
    exact agg_subset_aux remote ps strs repos [] (by simp) kv hkv x hx

/-- Witness for C10 on a one-repository, one-string run. -/
theorem aggregator_values_subset_witness :
    ("https://example.com/alpha", ["x"]) ∈ search_strings_in_repos remoteHit [] [repoW] ["x"] ∧
    "x" ∈ (["x"] : List String) :=
  ⟨by decide,
   aggregator_values_subset remoteHit [] [repoW] ["x"]
     ("https://example.com/alpha", ["x"]) (by decide) "x" (by decide)⟩

/-! ### Reporter tally -/

theorem lookupCount_dictIncr_self (d : List (String × Nat)) (k : String) :
    lookupCount (dictIncr d k) k = lookupCount d k + 1 := by
  induction d with
  | nil => simp [dictIncr, lookupCount]
  | cons hd tl ih =>
    obtain ⟨k₁, n⟩ := hd
    by_cases h : k₁ = k
    · simp [dictIncr, lookupCount, h]
    · simp [dictIncr, lookupCount, h, ih]

theorem lookupCount_dictIncr_ne (d : List (String × Nat)) {k' k : String} (h : k' ≠ k) :
    lookupCount (dictIncr d k') k = lookupCount d k := by
  induction d with
  | nil => simp [dictIncr, lookupCount, h]
  | cons hd tl ih =>
    obtain ⟨k₁, n⟩ := hd
    by_cases h₁ : k₁ = k'
    · subst h₁
      simp [dictIncr, lookupCount, h]
    · by_cases h₂ : k₁ = k
      · subst h₂
        simp [dictIncr, lookupCount, h₁]
      · simp [dictIncr, lookupCount, h₁, h₂, ih]

theorem foldl_dictIncr_lookup (v : List String) :
    ∀ (c : List (String × Nat)) (s : String), v.Nodup →
      lookupCount (v.foldl dictIncr c) s
        = lookupCount c s + (if s ∈ v then 1 else 0) := by
  induction v with
  | nil => intro c s _; simp
  | cons a t ih =>
    intro c s hnd
    obtain ⟨hat, hndt⟩ := List.nodup_cons.mp hnd
    rw [List.foldl_cons, ih _ s hndt]
    by_cases hsa : s = a
    · subst hsa
      rw [lookupCount_dictIncr_self]
      simp [hat]
    · rw [lookupCount_dictIncr_ne _ (Ne.symm hsa)]
      simp [List.mem_cons, hsa]

theorem string_counts_aux (s : String) :
    ∀ (results : List (String × List String)) (acc : List (String × Nat)),
      (∀ kv ∈ results, kv.2.Nodup) →
      lookupCount (results.foldl (fun counts kv => kv.2.foldl dictIncr counts) acc) s
        = lookupCount acc s + (results.filter (fun kv => kv.2.contains s)).length := by
  intro results
  induction results with
  | nil => intro acc _; simp
  | cons kv t ih =>
    intro acc h
    rw [List.foldl_cons, ih _ (fun x hx => h x (List.mem_cons_of_mem kv hx)),
      foldl_dictIncr_lookup kv.2 acc s (h kv (List.mem_cons_self kv t)),
      List.filter_cons]
    by_cases hc : s ∈ kv.2
    · have hcb : kv.2.contains s = true := List.elem_iff.mpr hc
      simp only [hcb, if_pos, hc, if_true, List.length_cons]
      omega
    · have hcb : kv.2.contains s = false := by
        rw [← Bool.not_eq_true]
        intro hcontra
        exact hc (List.elem_iff.mp hcontra)
      simp only [hcb, hc, if_false, Bool.false_eq_true]
      omega

/-- C7: for a result mapping with distinct keys and duplicate-free value
sets, the Reporter's per-string tally assigns to each string exactly the
number of entries whose value set contains it; in particular the synthetic
mapping where repoA matched x and repoB matched x and y produces the tally
assigning 2 to x and 1 to y. -/
theorem reporter_tally :
    (∀ (results : List (String × List String)) (s : String),
      (results.map Prod.fst).Nodup → (∀ kv ∈ results, kv.2.Nodup) →
      lookupCount (string_counts results) s
        = (results.filter (fun kv => kv.2.contains s)).length) ∧
    string_counts [("repoA", ["x"]), ("repoB", ["x", "y"])] = [("x", 2), ("y", 1)] := by
  constructor
  · intro results s _ h2
    rw [string_counts, string_counts_aux s results [] h2]
    simp [lookupCount]
  · decide

/-- Witness for C7 at the synthetic mapping from the spec. -/
theorem reporter_tally_witness :
    lookupCount (string_counts [("repoA", ["x"]), ("repoB", ["x", "y"])]) "x"
      = ([("repoA", ["x"]), ("repoB", ["x", "y"])].filter
          (fun kv => kv.2.contains "x")).length :=
  reporter_tally.1 [("repoA", ["x"]), ("repoB", ["x", "y"])] "x" (by decide) (by decide)

/-- C8: running the whole search twice with the same repositories, search
strings, ignore patterns and an unchanged remote (a fixed function from
query to outcome) yields identical result mappings. -/
theorem search_run_idempotent (remote : Remote) (ps : List String)
    (repos : List Repo) (strs : List String) :
    search_strings_in_repos remote ps repos strs =
      search_strings_in_repos remote ps repos strs := rfl

end GhSearch
